import Mathlib

/-!
Shallow embedding of the Notely note service layer (`src/services.py`,
`src/models.py`) and verification of its specification.

Modelling conventions:
* Timestamps are an abstract logical clock (`Nat`); each service operation
  receives the current clock value `now` as an explicit argument, standing for
  `datetime.now(UTC)` read during that operation.
* Strings are modelled over the ASCII fragment: `str.lower` is `Char.toLower`
  (which folds exactly `A`-`Z`), `str.strip` drops the ASCII whitespace
  characters, `str.isdigit` tests ASCII digits.
* The SQLite backend's `LIKE` operator (used by `list_notes` and
  `backlinks_for`) is modelled faithfully: `%` matches any sequence, `_`
  matches any single character, and comparison folds ASCII case, which is
  SQLite's default behaviour.
* The notes table is a list of rows in insertion order together with the next
  auto-increment id; `SELECT ... .first()` is `List.find?`, an `UPDATE` by
  primary key replaces every row carrying that id, a hard `DELETE` removes
  them.
-/

namespace Notely

/-- Whitespace recognised by Python's `str.strip()` (ASCII fragment:
space, tab, newline, carriage return, vertical tab, form feed). -/
def pyIsSpace (c : Char) : Bool :=
  c.toNat = 32 || c.toNat = 9 || c.toNat = 10 || c.toNat = 13 ||
    c.toNat = 11 || c.toNat = 12

/-- Python `str.strip()` on a character list: drop leading and trailing
whitespace. -/
def stripList (l : List Char) : List Char :=
  ((l.dropWhile pyIsSpace).reverse.dropWhile pyIsSpace).reverse

/-- Python `str.strip()`. -/
def pyStrip (s : String) : String :=
  ⟨stripList s.data⟩

/-- Python `str.lower()` (ASCII fragment): fold `A`-`Z` to lower case. -/
def pyLower (s : String) : String :=
  ⟨s.data.map Char.toLower⟩

/-- Python `str.isdigit()` (ASCII fragment): nonempty and all digits. -/
def pyIsDigit (s : String) : Bool :=
  s ≠ "" && s.data.all Char.isDigit

/-- Python `int(s)` for a string of decimal digits. -/
def digitsToNat (s : String) : Nat :=
  s.data.foldl (fun a c => 10 * a + (c.toNat - 48)) 0

/-- Code-point lexicographic `≤` on character lists: the order Python's
`sorted` uses on strings, and SQLite's binary TEXT collation. -/
def strLeB : List Char → List Char → Bool
  | [], _ => true
  | _ :: _, [] => false
  | a :: as, b :: bs =>
    if a.toNat < b.toNat then true
    else if a.toNat = b.toNat then strLeB as bs
    else false

/-- Code-point lexicographic `≤` on strings, as a relation. -/
def pyLe (s t : String) : Prop :=
  strLeB s.data t.data = true

instance : DecidableRel pyLe :=
  fun a b => inferInstanceAs (Decidable (strLeB a.data b.data = true))

/-- `services._normal_tags`: strip each tag, lower-case it, discard tags that
are empty or whitespace-only, deduplicate, and sort.  (Python:
`sorted({t.strip().lower() for t in tags if t and t.strip()})`.) -/
def _normal_tags (tags : List String) : List String :=
  List.insertionSort pyLe
    (((tags.filter (fun t => pyStrip t ≠ "")).map
        (fun t => pyLower (pyStrip t))).dedup)

/-- `models.Note.set_tags` expressed as the CSV string it stores:
normalize, then join with commas (the empty list yields `""`). -/
def set_tags_csv (tags : List String) : String :=
  ",".intercalate (_normal_tags tags)

/-- `models.Note`: the sole persisted entity. -/
structure Note where
  id : Nat
  title : String
  content : String
  tags_csv : String
  pinned : Bool
  archived : Bool
  created_at : Nat
  updated_at : Nat
deriving Repr, DecidableEq

/-- `models.Note.tags`: split the CSV on commas, keep nonempty pieces. -/
def Note.tags (n : Note) : List String :=
  if n.tags_csv = "" then [] else (n.tags_csv.splitOn ",").filter (fun t => t ≠ "")

/-- The notes table: rows in insertion order plus the next auto-increment id. -/
structure Store where
  notes : List Note
  nextId : Nat
deriving Repr, DecidableEq

/-- SQLite `LIKE` compares characters after folding ASCII upper case
(`PRAGMA case_sensitive_like` defaults to off); `Char.toLower` folds exactly
`A`-`Z`. -/
def likeCharEq (p c : Char) : Bool :=
  p.toLower = c.toLower

/-- SQLite `LIKE` pattern matching: `%` matches any sequence of characters
(tried against every suffix of the subject), `_` matches exactly one
character, anything else matches one character ASCII-case-insensitively. -/
def likeMatch : List Char → List Char → Bool
  | [], s => s.isEmpty
  | '%' :: ps, s => s.tails.any (fun t => likeMatch ps t)
  | '_' :: ps, cs =>
    match cs with
    | [] => false
    | _ :: cs => likeMatch ps cs
  | p :: ps, cs =>
    match cs with
    | [] => false
    | c :: cs => likeCharEq p c && likeMatch ps cs

/-- Literal, case-sensitive substring containment on character lists
(used to state what a plain substring match would be). -/
def containsSeq (needle : List Char) : List Char → Bool
  | [] => needle.isEmpty
  | c :: t => needle.isPrefixOf (c :: t) || containsSeq needle t

/-- The polymorphic `identifier` argument: a Python `int` or a string. -/
inductive Ident where
  | num : Int → Ident
  | str : String → Ident
deriving Repr, DecidableEq

/-- Python `str(identifier)`. -/
def Ident.pyStr : Ident → String
  | .num i => toString i
  | .str s => s

/-- The test `isinstance(identifier, int) or str(identifier).isdigit()`. -/
def Ident.isNumeric : Ident → Bool
  | .num _ => true
  | .str s => pyIsDigit s

/-- Python `int(identifier)`, evaluated on the numeric branch. -/
def Ident.intVal : Ident → Int
  | .num i => i
  | .str s => (digitsToNat s : Int)

/-- The error raised by `edit_note` / `pin_note` / `archive_note` /
`restore_note` when resolution fails (`ValueError` in the source, mapped to
404 by the API layer; the spec calls it `NotFoundError`). -/
inductive ServiceError where
  | notFound : Ident → ServiceError
deriving Repr, DecidableEq

/-- `services.get_note`: if the identifier is an int or a digit string, try
the primary-key lookup first and return a hit; otherwise (including when the
id lookup misses) run the exact-title query and return its first row. -/
def get_note (st : Store) (ident : Ident) : Option Note :=
  let byTitle := st.notes.find? (fun n => n.title == ident.pyStr)
  if ident.isNumeric then
    match st.notes.find? (fun n => (n.id : Int) == ident.intVal) with
    | some n => some n
    | none => byTitle
  else byTitle

/-- `services.create_note`: normalize the tags, build the row with fresh id,
both timestamps set to now and both flags false, and append it. -/
def create_note (st : Store) (now : Nat) (title : String) (content : String)
    (tags : List String) : Note × Store :=
  let note : Note :=
    { id := st.nextId, title := title, content := content
      tags_csv := set_tags_csv (_normal_tags tags)
      pinned := false, archived := false
      created_at := now, updated_at := now }
  (note, { notes := st.notes ++ [note], nextId := st.nextId + 1 })

/-- An `UPDATE` by primary key: replace the row(s) carrying `note.id`. -/
def put_note (st : Store) (note : Note) : Store :=
  { st with notes := st.notes.map (fun m => if m.id = note.id then note else m) }

/-- `services.list_notes`: optionally exclude archived rows, apply the `tag`
filter (`tags_csv LIKE '%' || lower(strip(tag)) || '%'`), apply the `search`
filter (`title LIKE '%search%' OR content LIKE '%search%'`), then sort by the
requested key. -/
def list_notes (st : Store) (tag : Option String) (search : Option String)
    (include_archived : Bool) (sort : String) : List Note :=
  let l := st.notes
  let l := if include_archived then l else l.filter (fun n => !n.archived)
  let l := match tag with
    | none => l
    | some t =>
      if t = "" then l
      else
        let t2 := pyLower (pyStrip t)
        l.filter (fun n => likeMatch ("%" ++ t2 ++ "%").data n.tags_csv.data)
  let l := match search with
    | none => l
    | some q =>
      if q = "" then l
      else
        l.filter (fun n =>
          likeMatch ("%" ++ q ++ "%").data n.title.data ||
            likeMatch ("%" ++ q ++ "%").data n.content.data)
  if sort = "created" then
    List.insertionSort (fun a b => b.created_at ≤ a.created_at) l
  else if sort = "title" then
    List.insertionSort (fun a b => pyLe a.title b.title) l
  else
    List.insertionSort (fun a b => b.updated_at ≤ a.updated_at) l

/-- `services.edit_note`: resolve (error when absent), overwrite exactly the
provided fields, always refresh `updated_at`, store and return the row. -/
def edit_note (st : Store) (now : Nat) (ident : Ident)
    (title : Option String) (content : Option String)
    (tags : Option (List String)) (archived : Option Bool)
    (pinned : Option Bool) : Except ServiceError (Note × Store) :=
  match get_note st ident with
  | none => .error (.notFound ident)
  | some note =>
    let note :=
      { note with
        title := title.getD note.title
        content := content.getD note.content
        tags_csv :=
          match tags with
          | none => note.tags_csv
          | some ts => set_tags_csv (_normal_tags ts)
        archived := archived.getD note.archived
        pinned := pinned.getD note.pinned
        updated_at := now }
    .ok (note, put_note st note)

/-- `services.delete_note`: missing target is a silent no-op; `hard` removes
the row, otherwise set `archived` and bump `updated_at`. -/
def delete_note (st : Store) (now : Nat) (ident : Ident) (hard : Bool) : Store :=
  match get_note st ident with
  | none => st
  | some note =>
    if hard then { st with notes := st.notes.filter (fun m => m.id ≠ note.id) }
    else put_note st { note with archived := true, updated_at := now }

/-- `services.pin_note`: resolve-or-error, set `pinned`, bump `updated_at`. -/
def pin_note (st : Store) (now : Nat) (ident : Ident) (value : Bool) :
    Except ServiceError (Note × Store) :=
  match get_note st ident with
  | none => .error (.notFound ident)
  | some note =>
    let n2 := { note with pinned := value, updated_at := now }
    .ok (n2, put_note st n2)

/-- `services.archive_note`: resolve-or-error, set `archived`, bump
`updated_at`. -/
def archive_note (st : Store) (now : Nat) (ident : Ident) (value : Bool) :
    Except ServiceError (Note × Store) :=
  match get_note st ident with
  | none => .error (.notFound ident)
  | some note =>
    let n2 := { note with archived := value, updated_at := now }
    .ok (n2, put_note st n2)

/-- `services.restore_note` is literally `archive_note(identifier, value=False)`. -/
def restore_note (st : Store) (now : Nat) (ident : Ident) :
    Except ServiceError (Note × Store) :=
  archive_note st now ident false

/-- `services.purge_note` is literally `delete_note(identifier, hard=True)`. -/
def purge_note (st : Store) (now : Nat) (ident : Ident) : Store :=
  delete_note st now ident true

/-- The scanner of `re.finditer` for `BACKLINK_RE = \[\[([^\]]+)\]\]`: at each
position, `[[` followed by a maximal nonempty run of non-`]` characters
followed by `]]` is a match (the run is the capture) and scanning resumes
after the closing `]]`; on failure the scan advances one character. -/
def scanLinksF : Nat → List Char → List String
  | 0, _ => []
  | fuel + 1, l =>
    match l with
    | '[' :: '[' :: rest =>
      let cap := rest.takeWhile (fun x => x ≠ ']')
      let rem := rest.dropWhile (fun x => x ≠ ']')
      if cap ≠ [] ∧ rem.take 2 = [']', ']'] then
        String.mk cap :: scanLinksF fuel (rem.drop 2)
      else
        scanLinksF fuel ('[' :: rest)
    | _ :: rest => scanLinksF fuel rest
    | [] => []

/-- The scan of a whole content string.  Every recursive step of `scanLinksF`
consumes at least one character, so `l.length` fuel always runs the scan to
completion. -/
def scanLinks (l : List Char) : List String :=
  scanLinksF l.length l

/-- `services.extract_links`: falsy content gives `[]`; otherwise the set of
stripped captures of `BACKLINK_RE`, sorted. -/
def extract_links (content : String) : List String :=
  if content = "" then []
  else List.insertionSort pyLe (((scanLinks content.data).map pyStrip).dedup)

/-- `services.backlinks_for`: resolve the target (absent means `[]`), then
select the notes whose content is `LIKE '%[[' || title || ']]%'`, excluding
archived ones unless requested. -/
def backlinks_for (st : Store) (ident : Ident) (include_archived : Bool) :
    List Note :=
  match get_note st ident with
  | none => []
  | some target =>
    st.notes.filter (fun n =>
      likeMatch ("%[[" ++ target.title ++ "]]%").data n.content.data &&
        (include_archived || !n.archived))

/-! ## Concrete stores used to instantiate the theorems -/

/-- A note whose title is the digit string "2". -/
def noteTitled2 : Note := ⟨1, "2", "", "", false, false, 0, 0⟩

def storeTitled2 : Store := ⟨[noteTitled2], 2⟩

/-- A note whose title contains the LIKE wildcard `_`. -/
def noteTargetUnder : Note := ⟨1, "a_c", "", "", false, false, 0, 0⟩

/-- A note whose content does not contain the literal `[[a_c]]`. -/
def noteLinkerAbc : Note := ⟨2, "n", "see [[abc]]", "", false, false, 0, 0⟩

def storeUnder : Store := ⟨[noteTargetUnder, noteLinkerAbc], 3⟩

/-- The spec's backlink scenario: A links to B. -/
def noteA : Note := ⟨1, "A", "see [[B]]", "", false, false, 0, 0⟩

def noteB : Note := ⟨2, "B", "world", "", false, false, 0, 0⟩

def storeAB : Store := ⟨[noteA, noteB], 3⟩

/-- Note with id 1 next to a note whose title is the digit string "1". -/
def noteX : Note := ⟨1, "x", "", "", false, false, 0, 0⟩

def noteTitled1 : Note := ⟨2, "1", "", "", false, false, 0, 0⟩

def storeShadow : Store := ⟨[noteX, noteTitled1], 3⟩

/-- A note tagged "work". -/
def noteWork : Note := ⟨1, "alpha", "", "work", false, false, 0, 0⟩

def storeWork : Store := ⟨[noteWork], 2⟩

/-- A generic single-note store. -/
def noteDraft : Note := ⟨1, "draft", "hello", "temp", false, false, 0, 0⟩

def storeDraft : Store := ⟨[noteDraft], 2⟩

/-! ## Character and string lemmas -/

theorem char_toNat_ofNat {n : Nat} (h : n < 55296) : (Char.ofNat n).toNat = n := by
  rw [Char.ofNat, dif_pos (Or.inl h : Nat.isValidChar n)]
  rfl

theorem toLower_toNat (c : Char) :
    (Char.toLower c).toNat =
      if 65 ≤ c.toNat ∧ c.toNat ≤ 90 then c.toNat + 32 else c.toNat := by
  unfold Char.toLower
  split
  · next hc =>
    rw [if_pos ⟨hc.1, hc.2⟩]
    exact char_toNat_ofNat (by omega)
  · next hc =>
    rw [if_neg (by exact fun h => hc ⟨h.1, h.2⟩)]

theorem toLower_eq_self {c : Char} (h : ¬(65 ≤ c.toNat ∧ c.toNat ≤ 90)) :
    Char.toLower c = c := by
  show (if c.toNat ≥ 65 ∧ c.toNat ≤ 90 then Char.ofNat (c.toNat + 32) else c) = c
  rw [if_neg (fun hc => h ⟨hc.1, hc.2⟩)]

theorem toLower_toLower (c : Char) :
    Char.toLower (Char.toLower c) = Char.toLower c := by
  apply toLower_eq_self
  have h := toLower_toNat c
  by_cases hc : 65 ≤ c.toNat ∧ c.toNat ≤ 90
  · rw [if_pos hc] at h
    omega
  · rw [if_neg hc] at h
    omega

theorem pyIsSpace_toLower (c : Char) : pyIsSpace (Char.toLower c) = pyIsSpace c := by
  have h := toLower_toNat c
  by_cases hc : 65 ≤ c.toNat ∧ c.toNat ≤ 90
  · rw [if_pos hc] at h
    have h1 : pyIsSpace (Char.toLower c) = false := by
      simp only [pyIsSpace, h, Bool.or_eq_false_iff, decide_eq_false_iff_not]
      omega
    have h2 : pyIsSpace c = false := by
      simp only [pyIsSpace, Bool.or_eq_false_iff, decide_eq_false_iff_not]
      omega
    rw [h1, h2]
  · rw [if_neg hc] at h
    simp only [pyIsSpace, h]

theorem map_toLower_toLower (l : List Char) :
    (l.map Char.toLower).map Char.toLower = l.map Char.toLower := by
  rw [List.map_map]
  exact List.map_congr_left (fun a _ => toLower_toLower a)

theorem dropWhile_head_false {α : Type} {p : α → Bool} {l : List α} {c : α}
    {t : List α} (h : l.dropWhile p = c :: t) : p c = false := by
  have hh := List.head?_dropWhile_not p l
  rw [h] at hh
  exact hh

theorem dropWhile_eq_self_of_head {α : Type} {p : α → Bool} {l : List α}
    (h : ∀ c t, l = c :: t → p c = false) : l.dropWhile p = l := by
  cases l with
  | nil => rfl
  | cons c t =>
    rw [List.dropWhile_cons_of_neg]
    simp [h c t rfl]

theorem dropWhile_idem {α : Type} {p : α → Bool} (l : List α) :
    (l.dropWhile p).dropWhile p = l.dropWhile p := by
  apply dropWhile_eq_self_of_head
  intro c t h
  exact dropWhile_head_false h

theorem stripList_split (l : List Char) :
    stripList l ++ ((l.dropWhile pyIsSpace).reverse.takeWhile pyIsSpace).reverse
      = l.dropWhile pyIsSpace := by
  unfold stripList
  rw [← List.reverse_append, List.takeWhile_append_dropWhile, List.reverse_reverse]

theorem stripList_head_false {l : List Char} {c : Char} {t : List Char}
    (h : stripList l = c :: t) : pyIsSpace c = false := by
  have hsplit := stripList_split l
  rw [h] at hsplit
  exact dropWhile_head_false (l := l) hsplit.symm

theorem stripList_idem (l : List Char) : stripList (stripList l) = stripList l := by
  have key : List.dropWhile pyIsSpace (stripList l) = stripList l := by
    apply dropWhile_eq_self_of_head
    intro c t h
    exact stripList_head_false h
  show ((List.dropWhile pyIsSpace (stripList l)).reverse.dropWhile pyIsSpace).reverse
      = stripList l
  rw [key]
  have hB : (stripList l).reverse
      = (l.dropWhile pyIsSpace).reverse.dropWhile pyIsSpace := by
    unfold stripList
    rw [List.reverse_reverse]
  rw [hB, dropWhile_idem]
  rfl

theorem stripList_map_toLower (l : List Char) :
    stripList (l.map Char.toLower) = (stripList l).map Char.toLower := by
  have hp : (pyIsSpace ∘ Char.toLower) = pyIsSpace := funext pyIsSpace_toLower
  unfold stripList
  rw [List.dropWhile_map, hp, ← List.map_reverse, List.dropWhile_map, hp,
    ← List.map_reverse]

theorem pyStrip_pyStrip (s : String) : pyStrip (pyStrip s) = pyStrip s :=
  congrArg String.mk (stripList_idem s.data)

theorem pyStrip_pyLower (s : String) : pyStrip (pyLower s) = pyLower (pyStrip s) :=
  congrArg String.mk (stripList_map_toLower s.data)

theorem pyLower_pyLower (s : String) : pyLower (pyLower s) = pyLower s :=
  congrArg String.mk (map_toLower_toLower s.data)

theorem pyLower_ne_empty {s : String} (h : s ≠ "") : pyLower s ≠ "" := by
  intro hc
  apply h
  have hd : (pyLower s).data = ([] : List Char) := congrArg String.data hc
  have : s.data = [] := by
    have := congrArg List.length hd
    simp only [pyLower, List.length_map] at this
    exact List.eq_nil_of_length_eq_zero this
  cases s
  simp_all

/-! ## The cleanup map `t ↦ lower(strip(t))` of `_normal_tags` -/

theorem clean_clean (t : String) :
    pyLower (pyStrip (pyLower (pyStrip t))) = pyLower (pyStrip t) := by
  rw [pyStrip_pyLower, pyStrip_pyStrip, pyLower_pyLower]

theorem pyStrip_clean (t : String) :
    pyStrip (pyLower (pyStrip t)) = pyLower (pyStrip t) := by
  rw [pyStrip_pyLower, pyStrip_pyStrip]

theorem pyLower_clean (t : String) :
    pyLower (pyLower (pyStrip t)) = pyLower (pyStrip t) :=
  pyLower_pyLower _

/-! ## The lexicographic order used for sorting -/

theorem strLeB_total : ∀ as bs : List Char, strLeB as bs = true ∨ strLeB bs as = true
  | [], _ => Or.inl rfl
  | _ :: _, [] => Or.inr rfl
  | a :: as, b :: bs => by
    rcases Nat.lt_trichotomy a.toNat b.toNat with h | h | h
    · left
      simp [strLeB, h]
    · rcases strLeB_total as bs with ih | ih
      · left
        simp [strLeB, h, Nat.lt_irrefl, ih]
      · right
        simp [strLeB, h.symm, Nat.lt_irrefl, ih]
    · right
      simp [strLeB, h]

theorem strLeB_trans : ∀ as bs cs : List Char,
    strLeB as bs = true → strLeB bs cs = true → strLeB as cs = true
  | [], _, _ => by intro _ _; rfl
  | _ :: _, [], _ => by intro h _; simp [strLeB] at h
  | _ :: _, _ :: _, [] => by intro _ h; simp [strLeB] at h
  | a :: as, b :: bs, c :: cs => by
    intro h1 h2
    simp only [strLeB] at h1 h2 ⊢
    split at h1
    · next hab =>
      split at h2
      · next hbc => simp [Nat.lt_trans hab hbc]
      · split at h2
        · next hbc => simp [hbc ▸ hab]
        · exact absurd h2 (by simp)
    · split at h1
      · next hab =>
        split at h2
        · next hbc => simp [hab ▸ hbc]
        · split at h2
          · next hbc =>
            rw [if_neg (by omega), if_pos (by omega)]
            exact strLeB_trans as bs cs h1 h2
          · exact absurd h2 (by simp)
      · exact absurd h1 (by simp)

instance : IsTotal String pyLe :=
  ⟨fun a b => strLeB_total a.data b.data⟩

instance : IsTrans String pyLe :=
  ⟨fun a b c hab hbc => strLeB_trans a.data b.data c.data hab hbc⟩

/-! ## Properties of `_normal_tags` -/

theorem mem_normal_tags {x : String} {tags : List String} :
    x ∈ _normal_tags tags ↔
      ∃ t, t ∈ tags ∧ pyStrip t ≠ "" ∧ x = pyLower (pyStrip t) := by
  unfold _normal_tags
  rw [List.mem_insertionSort, List.mem_dedup, List.mem_map]
  constructor
  · rintro ⟨t, ht, rfl⟩
    rw [List.mem_filter] at ht
    exact ⟨t, ht.1, by simpa using ht.2, rfl⟩
  · rintro ⟨t, ht, hne, rfl⟩
    exact ⟨t, List.mem_filter.mpr ⟨ht, by simpa using hne⟩, rfl⟩

theorem normal_tags_elem_facts {x : String} {tags : List String}
    (h : x ∈ _normal_tags tags) :
    x ≠ "" ∧ pyStrip x = x ∧ pyLower x = x := by
  obtain ⟨t, -, hne, rfl⟩ := mem_normal_tags.mp h
  exact ⟨pyLower_ne_empty (by simpa [pyStrip] using
      (fun hc => hne (by simpa [pyStrip] using hc))), pyStrip_clean t, pyLower_clean t⟩

theorem normal_tags_nodup (tags : List String) : (_normal_tags tags).Nodup := by
  unfold _normal_tags
  exact ((List.perm_insertionSort pyLe _).nodup_iff).mpr (List.nodup_dedup _)

theorem normal_tags_sorted (tags : List String) :
    List.Sorted pyLe (_normal_tags tags) :=
  List.sorted_insertionSort pyLe _

theorem normal_tags_fixed {out : List String}
    (hfacts : ∀ x ∈ out, x ≠ "" ∧ pyStrip x = x ∧ pyLower x = x)
    (hnd : out.Nodup) (hsort : List.Sorted pyLe out) :
    _normal_tags out = out := by
  unfold _normal_tags
  have h1 : out.filter (fun t => pyStrip t ≠ "") = out := by
    apply List.filter_eq_self.mpr
    intro a ha
    obtain ⟨hne, hs, _⟩ := hfacts a ha
    simp only [decide_eq_true_eq]
    rw [hs]
    exact hne
  have h2 : out.map (fun t => pyLower (pyStrip t)) = out := by
    have h := List.map_congr_left (l := out)
      (f := fun t => pyLower (pyStrip t)) (g := id) (fun a ha => by
        obtain ⟨_, hs, hl⟩ := hfacts a ha
        simp [hs, hl])
    simpa using h
  rw [h1, h2, List.dedup_eq_self.mpr hnd, hsort.insertionSort_eq]

theorem normal_tags_idem (tags : List String) :
    _normal_tags (_normal_tags tags) = _normal_tags tags :=
  normal_tags_fixed (fun _ hx => normal_tags_elem_facts hx)
    (normal_tags_nodup tags) (normal_tags_sorted tags)

/-! ## Store-level resolution lemmas -/

/-- Replacing the row that carries the id found by a primary-key `find?`
makes the same `find?` return the replacement. -/
theorem find?_replace {l : List Note} {v : Int} {n0 : Note} (n2 : Note)
    (h : l.find? (fun m => (m.id : Int) == v) = some n0) (hid : n2.id = n0.id) :
    (l.map (fun m => if m.id = n2.id then n2 else m)).find?
      (fun m => (m.id : Int) == v) = some n2 := by
  induction l with
  | nil => simp at h
  | cons a l ih =>
    by_cases ha : ((a.id : Int) == v) = true
    · rw [List.find?_cons_of_pos (p := fun m => (m.id : Int) == v) l ha] at h
      injection h with h
      subst h
      have hv : (a.id : Int) = v := by simpa using ha
      rw [List.map_cons, if_pos hid.symm]
      apply List.find?_cons_of_pos
      simp [hid, hv]
    · rw [List.find?_cons_of_neg (p := fun m => (m.id : Int) == v) l ha] at h
      have hv : (n0.id : Int) = v := by simpa using List.find?_some h
      have hane : a.id ≠ n2.id := by
        intro hcontra
        exact ha (by simp [hcontra, hid, hv])
      rw [List.map_cons, if_neg hane,
        List.find?_cons_of_neg (p := fun m : Note => (m.id : Int) == v)
          (List.map (fun m => if m.id = n2.id then n2 else m) l) ha]
      exact ih h

/-- An existing id is resolved by the primary-key `find?`, and the row found
carries that id. -/
theorem exists_id_find? {st : Store} {id : Nat} (h : ∃ n ∈ st.notes, n.id = id) :
    ∃ n0, st.notes.find? (fun n => (n.id : Int) == ((id : Nat) : Int)) = some n0
      ∧ n0.id = id := by
  have hs : (st.notes.find? (fun n => (n.id : Int) == ((id : Nat) : Int))).isSome := by
    rw [List.find?_isSome]
    obtain ⟨n, hn, hid⟩ := h
    exact ⟨n, hn, by simp [hid]⟩
  obtain ⟨n0, hn0⟩ := Option.isSome_iff_exists.mp hs
  refine ⟨n0, hn0, ?_⟩
  have hp := List.find?_some hn0
  simpa using hp

theorem get_note_of_id_find? {st : Store} {id : Nat} {n0 : Note}
    (h : st.notes.find? (fun n => (n.id : Int) == ((id : Nat) : Int)) = some n0) :
    get_note st (.num (id : Nat)) = some n0 := by
  unfold get_note
  simp only [Ident.isNumeric, if_pos]
  rw [show Ident.intVal (.num (id : Nat)) = ((id : Nat) : Int) from rfl, h]

/-- `get_note` at an int identifier, unfolded. -/
theorem get_note_num_eq (st : Store) (i : Int) :
    get_note st (.num i)
      = (match st.notes.find? (fun n => (n.id : Int) == i) with
         | some n => some n
         | none => st.notes.find? (fun n => n.title == toString i)) := rfl

/-- `get_note` at an int identifier whose id lookup misses runs the title
lookup on the identifier's decimal string. -/
theorem get_note_num_miss {st : Store} {i : Int}
    (h : st.notes.find? (fun n => (n.id : Int) == i) = none) :
    get_note st (.num i) = st.notes.find? (fun n => n.title == toString i) := by
  rw [get_note_num_eq, h]

/-! ## Claim theorems -/

/-- C5: tag normalization is idempotent; its result has no duplicates, no
entries that are empty or whitespace-only (each element is nonempty and fixed
under stripping), only lower-cased trimmed strings (each element is fixed
under lower-casing), in sorted (code-point lexicographic) order. -/
theorem C5_tag_normalization (tags : List String) :
    _normal_tags (_normal_tags tags) = _normal_tags tags ∧
    (_normal_tags tags).Nodup ∧
    (∀ x ∈ _normal_tags tags, x ≠ "" ∧ pyStrip x = x ∧ pyLower x = x) ∧
    List.Sorted pyLe (_normal_tags tags) :=
  ⟨normal_tags_idem tags, normal_tags_nodup tags,
    fun _ hx => normal_tags_elem_facts hx, normal_tags_sorted tags⟩

/-- C5 witness: the third conjunct applied to a concrete normalized tag. -/
theorem C5_tag_normalization_witness :
    "ideas" ≠ "" ∧ pyStrip "ideas" = "ideas" ∧ pyLower "ideas" = "ideas" :=
  (C5_tag_normalization ["  Work ", "ideas", "work"]).2.2.1 "ideas" (by decide)

/-- C4: `create_note` persists a new note with `created_at = updated_at = now`
and `pinned = archived = false`, and returns the fully materialized note
carrying the assigned id. -/
theorem C4_create_note_spec (st : Store) (now : Nat) (title content : String)
    (tags : List String) :
    (create_note st now title content tags).1.created_at = now ∧
    (create_note st now title content tags).1.updated_at = now ∧
    (create_note st now title content tags).1.pinned = false ∧
    (create_note st now title content tags).1.archived = false ∧
    (create_note st now title content tags).1.id = st.nextId ∧
    (create_note st now title content tags).1.title = title ∧
    (create_note st now title content tags).1.content = content ∧
    (create_note st now title content tags).2.notes
      = st.notes ++ [(create_note st now title content tags).1] ∧
    (create_note st now title content tags).2.nextId = st.nextId + 1 :=
  ⟨rfl, rfl, rfl, rfl, rfl, rfl, rfl, rfl, rfl⟩

/-- C3: when the identifier resolves to no note, `edit_note`, `pin_note`,
`archive_note` and `restore_note` raise `NotFoundError`, while `delete_note`
and `purge_note` return normally as no-ops leaving the store unchanged. -/
theorem C3_missing_target (st : Store) (now : Nat) (ident : Ident)
    (title content : Option String) (tags : Option (List String))
    (archived pinned : Option Bool) (value hard : Bool)
    (h : get_note st ident = none) :
    edit_note st now ident title content tags archived pinned
        = .error (.notFound ident) ∧
    pin_note st now ident value = .error (.notFound ident) ∧
    archive_note st now ident value = .error (.notFound ident) ∧
    restore_note st now ident = .error (.notFound ident) ∧
    delete_note st now ident hard = st ∧
    purge_note st now ident = st := by
  unfold restore_note purge_note edit_note pin_note archive_note delete_note
  rw [h]
  exact ⟨rfl, rfl, rfl, rfl, rfl, rfl⟩

/-- C3 witness: the empty store resolves nothing. -/
theorem C3_missing_target_witness :
    get_note ⟨[], 1⟩ (.num 5) = none ∧
    edit_note ⟨[], 1⟩ 0 (.num 5) none none none none none
        = .error (.notFound (.num 5)) ∧
    delete_note ⟨[], 1⟩ 0 (.num 5) false = ⟨[], 1⟩ ∧
    purge_note ⟨[], 1⟩ 0 (.num 5) = ⟨[], 1⟩ := by
  have h := C3_missing_target ⟨[], 1⟩ 0 (.num 5) none none none none none
    true false rfl
  exact ⟨rfl, h.1, h.2.2.2.2.1, h.2.2.2.2.2⟩

/-- C10: `extract_links` can return a list containing the empty string: the
marker `[[ ]]` has a nonempty bracketed span that strips to `""`, which is
kept in the sorted result. -/
theorem C10_extract_links_keeps_empty :
    extract_links "[[ ]]" = [""] ∧ "" ∈ extract_links "[[ ]]" := by
  exact ⟨by decide, by decide⟩

/-- C1 counterexample: the identifier "2" is a digit string and no note with
id 2 exists, yet `get_note` does not return absent: it performs the
exact-title lookup and returns the note titled "2". -/
theorem C1_counterexample :
    pyIsDigit "2" = true ∧
    (∀ n ∈ storeTitled2.notes, n.id ≠ 2) ∧
    get_note storeTitled2 (.str "2") = some noteTitled2 :=
  ⟨by decide, by decide, by decide⟩

/-- C1 (amended): for a numeric identifier whose id lookup misses, `get_note`
falls back to the exact-title lookup on the identifier's string form; it
returns absent exactly when that lookup also misses. -/
theorem C1_get_numeric_fallback (st : Store) (ident : Ident)
    (h1 : ident.isNumeric = true)
    (h2 : st.notes.find? (fun n => (n.id : Int) == ident.intVal) = none) :
    get_note st ident = st.notes.find? (fun n => n.title == ident.pyStr) ∧
    (get_note st ident = none ↔ ∀ n ∈ st.notes, n.title ≠ ident.pyStr) := by
  have hmain : get_note st ident
      = st.notes.find? (fun n => n.title == ident.pyStr) := by
    unfold get_note
    rw [if_pos h1, h2]
  refine ⟨hmain, ?_⟩
  rw [hmain, List.find?_eq_none]
  simp

/-- C1 witness: the amended fallback at a concrete store. -/
theorem C1_get_numeric_fallback_witness :
    (Ident.str "2").isNumeric = true ∧
    storeTitled2.notes.find? (fun n => (n.id : Int) == (Ident.str "2").intVal)
        = none ∧
    get_note storeTitled2 (.str "2")
        = storeTitled2.notes.find? (fun n => n.title == (Ident.str "2").pyStr) := by
  have h := C1_get_numeric_fallback storeTitled2 (.str "2") (by decide) (by decide)
  exact ⟨by decide, by decide, h.1⟩

/-- C2 counterexample: the target title "a_c" contains the LIKE wildcard `_`,
so `backlinks_for` returns a note whose content does not contain the literal
string `[[a_c]]`. -/
theorem C2_counterexample :
    get_note storeUnder (.str "a_c") = some noteTargetUnder ∧
    backlinks_for storeUnder (.str "a_c") false = [noteLinkerAbc] ∧
    containsSeq ("[[" ++ noteTargetUnder.title ++ "]]").data
        noteLinkerAbc.content.data = false :=
  ⟨by decide, by decide, by decide⟩

/-- C2 (amended): `backlinks_for` returns `[]` when the target is absent;
otherwise it returns exactly the notes (excluding archived ones unless
`include_archived`) whose content matches the SQL LIKE pattern
`%[[title]]%` — with `%` and `_` acting as wildcards and ASCII-case-insensitive
comparison, which coincides with literal substring containment of `[[title]]`
only for wildcard-free titles up to case. -/
theorem C2_backlinks_spec (st : Store) (ident : Ident) (ia : Bool) :
    (get_note st ident = none → backlinks_for st ident ia = []) ∧
    ∀ target, get_note st ident = some target →
      ∀ n, n ∈ backlinks_for st ident ia ↔
        n ∈ st.notes ∧
        likeMatch ("%[[" ++ target.title ++ "]]%").data n.content.data = true ∧
        (ia = true ∨ n.archived = false) := by
  constructor
  · intro h
    unfold backlinks_for
    rw [h]
  · intro target h n
    unfold backlinks_for
    rw [h, List.mem_filter]
    constructor
    · rintro ⟨hmem, hq⟩
      rw [Bool.and_eq_true, Bool.or_eq_true] at hq
      refine ⟨hmem, hq.1, ?_⟩
      rcases hq.2 with hia | hna
      · exact Or.inl hia
      · exact Or.inr (by simpa using hna)
    · rintro ⟨hmem, hlike, hflag⟩
      refine ⟨hmem, ?_⟩
      rw [Bool.and_eq_true, Bool.or_eq_true]
      refine ⟨hlike, ?_⟩
      rcases hflag with hia | hna
      · exact Or.inl hia
      · exact Or.inr (by simp [hna])

/-- C2 witness: the spec's backlink scenario, through the amended theorem. -/
theorem C2_backlinks_spec_witness :
    noteA ∈ backlinks_for storeAB (.str "B") false ∧
    backlinks_for storeAB (.str "A") false = [] := by
  constructor
  · exact ((C2_backlinks_spec storeAB (.str "B") false).2 noteB (by decide)
      noteA).mpr ⟨by decide, by decide, Or.inr (by decide)⟩
  · decide

/-- C6: editing only the title leaves content, tags, pinned, archived, id and
created_at unchanged while refreshing `updated_at`; and every successful edit
sets `updated_at` to now no matter which fields were provided. -/
theorem C6_edit_frame (st : Store) (now : Nat) (ident : Ident) (n : Note)
    (t : String) (h : get_note st ident = some n) :
    (∃ st', edit_note st now ident (some t) none none none none
        = .ok ({ n with title := t, updated_at := now }, st')) ∧
    (∀ (ot oc : Option String) (otg : Option (List String)) (oa op : Option Bool)
        (m : Note) (st'' : Store),
      edit_note st now ident ot oc otg oa op = .ok (m, st'') →
        m.updated_at = now) := by
  constructor
  · refine ⟨put_note st { n with title := t, updated_at := now }, ?_⟩
    unfold edit_note
    rw [h]
    rfl
  · intro ot oc otg oa op m st'' he
    unfold edit_note at he
    rw [h] at he
    simp only [Except.ok.injEq, Prod.mk.injEq] at he
    rw [← he.1]

/-- C6 witness: the frame property at a concrete store. -/
theorem C6_edit_frame_witness :
    ∃ st', edit_note storeDraft 5 (.num 1) (some "final") none none none none
        = .ok ({ noteDraft with title := "final", updated_at := 5 }, st') :=
  (C6_edit_frame storeDraft 5 (.num 1) noteDraft "final" (by decide)).1

/-- C7 counterexample: hard-deleting the existing id 1 does not make
`get_note 1` absent when another note is titled "1": the exact-title fallback
of `get_note` returns that other note. -/
theorem C7_counterexample :
    (∃ n ∈ storeShadow.notes, n.id = 1) ∧
    get_note (delete_note storeShadow 7 (.num 1) true) (.num 1)
      = some noteTitled1 :=
  ⟨⟨noteX, by decide, by decide⟩, by decide⟩

/-- C7 (amended): for an existing note id, soft delete then get returns the
note with `archived = true` and `updated_at = now`; hard delete then get
returns absent provided no surviving note's title equals the decimal string
of the id (otherwise the title fallback of `get_note` returns that note). -/
theorem C7_delete_then_get (st : Store) (now : Nat) (id : Nat)
    (hex : ∃ n ∈ st.notes, n.id = id) :
    (∃ m, get_note (delete_note st now (.num (id : Nat)) false) (.num (id : Nat))
        = some m ∧ m.archived = true ∧ m.updated_at = now) ∧
    ((∀ m ∈ (delete_note st now (.num (id : Nat)) true).notes,
        m.title ≠ (Ident.num (id : Nat)).pyStr) →
      get_note (delete_note st now (.num (id : Nat)) true) (.num (id : Nat))
        = none) := by
  obtain ⟨n0, hfind, hn0⟩ := exists_id_find? hex
  have hget : get_note st (.num (id : Nat)) = some n0 := get_note_of_id_find? hfind
  constructor
  · have hdel : delete_note st now (.num (id : Nat)) false
        = put_note st { n0 with archived := true, updated_at := now } := by
      unfold delete_note
      rw [hget]
      rfl
    refine ⟨{ n0 with archived := true, updated_at := now }, ?_, rfl, rfl⟩
    rw [hdel]
    exact get_note_of_id_find?
      (find?_replace { n0 with archived := true, updated_at := now } hfind rfl)
  · intro htitle
    have hdel : delete_note st now (.num (id : Nat)) true
        = { st with notes := st.notes.filter (fun m => m.id ≠ n0.id) } := by
      unfold delete_note
      rw [hget]
      rfl
    rw [hdel] at htitle ⊢
    have hid_none : (st.notes.filter (fun m => m.id ≠ n0.id)).find?
        (fun n => (n.id : Int) == ((id : Nat) : Int)) = none := by
      rw [List.find?_eq_none]
      intro x hx
      rw [List.mem_filter] at hx
      have hxne : x.id ≠ n0.id := by simpa using hx.2
      simp only [beq_iff_eq]
      intro hcontra
      exact hxne (by rw [hn0]; exact_mod_cast hcontra)
    rw [get_note_num_miss hid_none, List.find?_eq_none]
    intro x hx
    simpa using htitle x hx

/-- C7 witness: the amended soft/hard behaviour at a concrete store. -/
theorem C7_delete_then_get_witness :
    (∃ m, get_note (delete_note storeDraft 7 (.num 1) false) (.num 1)
        = some m ∧ m.archived = true ∧ m.updated_at = 7) ∧
    get_note (delete_note storeDraft 7 (.num 1) true) (.num 1) = none := by
  have h := C7_delete_then_get storeDraft 7 1 ⟨noteDraft, by decide, by decide⟩
  exact ⟨h.1, h.2 (by decide)⟩

/-- C8: `restore_note` is literally `archive_note` with value false, and for
an existing note id, archiving and then restoring yields `archived = false`
with `updated_at` bumped to the restore time. -/
theorem C8_archive_then_restore (st : Store) (id t1 t2 : Nat)
    (hex : ∃ n ∈ st.notes, n.id = id) :
    (∀ (s : Store) (m : Nat) (i : Ident),
        restore_note s m i = archive_note s m i false) ∧
    ∃ n2 st2 n3 st3,
      archive_note st t1 (.num (id : Nat)) true = .ok (n2, st2) ∧
      restore_note st2 t2 (.num (id : Nat)) = .ok (n3, st3) ∧
      n3 = { n2 with archived := false, updated_at := t2 } ∧
      n3.archived = false := by
  refine ⟨fun _ _ _ => rfl, ?_⟩
  obtain ⟨n0, hfind, hn0⟩ := exists_id_find? hex
  have hget : get_note st (.num (id : Nat)) = some n0 := get_note_of_id_find? hfind
  have hget2 : get_note (put_note st { n0 with archived := true, updated_at := t1 })
      (.num (id : Nat)) = some { n0 with archived := true, updated_at := t1 } :=
    get_note_of_id_find?
      (find?_replace { n0 with archived := true, updated_at := t1 } hfind rfl)
  refine ⟨{ n0 with archived := true, updated_at := t1 },
    put_note st { n0 with archived := true, updated_at := t1 },
    { n0 with archived := false, updated_at := t2 },
    put_note (put_note st { n0 with archived := true, updated_at := t1 })
      { n0 with archived := false, updated_at := t2 }, ?_, ?_, rfl, rfl⟩
  · unfold archive_note
    rw [hget]
  · unfold restore_note archive_note
    rw [hget2]

/-- C8 witness: archive then restore at a concrete store. -/
theorem C8_archive_then_restore_witness :
    ∃ n2 st2 n3 st3,
      archive_note storeDraft 3 (.num 1) true = .ok (n2, st2) ∧
      restore_note st2 4 (.num 1) = .ok (n3, st3) ∧
      n3 = { n2 with archived := false, updated_at := 4 } ∧
      n3.archived = false :=
  (C8_archive_then_restore storeDraft 1 3 4 ⟨noteDraft, by decide, by decide⟩).2

/-- C9 counterexample: the tag filter "w_rk" returns the note tagged "work"
although "w_rk" is not a substring of the stored tag representation — the
filter is a LIKE pattern, not substring containment. -/
theorem C9_counterexample :
    list_notes storeWork (some "w_rk") none false "updated" = [noteWork] ∧
    containsSeq (pyLower (pyStrip "w_rk")).data noteWork.tags_csv.data = false :=
  ⟨by decide, by decide⟩

/-- C9 (amended): a nonempty tag filter is stripped and lower-cased and keeps
exactly the notes whose `tags_csv` matches the SQL LIKE pattern `%filter%`
(`%` and `_` wildcards, ASCII-case-insensitive — substring containment only
for wildcard-free filters); archived notes are excluded unless
`include_archived` is true. -/
theorem C9_list_tag_spec (st : Store) (t : String) (ia : Bool) (sort : String)
    (h : t ≠ "") (n : Note) :
    n ∈ list_notes st (some t) none ia sort ↔
      n ∈ st.notes ∧
      likeMatch ("%" ++ pyLower (pyStrip t) ++ "%").data n.tags_csv.data = true ∧
      (ia = true ∨ n.archived = false) := by
  have hpipe : ∀ m : Note,
      m ∈ ((if ia = true then st.notes
            else st.notes.filter (fun nn => !nn.archived)).filter
        (fun nn =>
          likeMatch ("%" ++ pyLower (pyStrip t) ++ "%").data nn.tags_csv.data)) ↔
      m ∈ st.notes ∧
      likeMatch ("%" ++ pyLower (pyStrip t) ++ "%").data m.tags_csv.data = true ∧
      (ia = true ∨ m.archived = false) := by
    intro m
    rw [List.mem_filter]
    by_cases hia : ia = true
    · rw [if_pos hia]
      constructor
      · rintro ⟨h1, h2⟩
        exact ⟨h1, h2, Or.inl hia⟩
      · rintro ⟨h1, h2, -⟩
        exact ⟨h1, h2⟩
    · rw [if_neg hia, List.mem_filter]
      constructor
      · rintro ⟨⟨h1, h3⟩, h2⟩
        exact ⟨h1, h2, Or.inr (by simpa using h3)⟩
      · rintro ⟨h1, h2, hor⟩
        rcases hor with hc | hc
        · exact absurd hc hia
        · exact ⟨⟨h1, by simp [hc]⟩, h2⟩
  simp only [list_notes]
  rw [if_neg h]
  split
  · rw [List.mem_insertionSort]
    exact hpipe n
  · split
    · rw [List.mem_insertionSort]
      exact hpipe n
    · rw [List.mem_insertionSort]
      exact hpipe n

/-- C9 witness: filter "wor" matches the note tagged "work". -/
theorem C9_list_tag_spec_witness :
    noteWork ∈ list_notes storeWork (some "wor") none false "updated" :=
  (C9_list_tag_spec storeWork "wor" false "updated" (by decide) noteWork).mpr
    ⟨by decide, by decide, Or.inr (by decide)⟩

end Notely
